import Mathlib

/-!
Shallow embedding of the ffmpegshuiyin backend core
(`backend/app/watermark.py`, `backend/app/ffmpeg_queue.py`,
`backend/app/models.py`, `backend/app/schemas.py`) and proofs about it.

Python strings are modelled as `List Char`, Python `int` as `ℤ` or `ℕ`,
Python `float` job progress/opacity as `ℚ`.  `time.time()` readings are
modelled as natural-number clock values supplied from outside.
-/

/-- Convert a Lean string literal to the `List Char` representation used for
Python strings throughout this development. -/
def chars (s : String) : List Char :=
  s.data

/- ----------------------------------------------------------------
   Data model (backend/app/models.py)
   ---------------------------------------------------------------- -/

/-- `WatermarkType` enumeration (`models.py`): `text` or `image`. -/
inductive WatermarkType where
  | text
  | image
deriving DecidableEq, Repr

/-- `JobStatus` enumeration (`models.py`). -/
inductive JobStatus where
  | queued
  | running
  | completed
  | failed
  | cancelled
deriving DecidableEq, Repr

/-- The five anchor positions admitted by the `Literal` type on
`WatermarkSettings.position` (`models.py`) and validated by the request
schema; `POSITION_MAP` in `watermark.py` has exactly these keys. -/
inductive AnchorPos where
  | topLeft
  | topRight
  | bottomLeft
  | bottomRight
  | center
deriving DecidableEq, Repr

/-- `Job.target_device` is `Literal["cpu", "intel", "nvidia"]` (`models.py`). -/
inductive TargetDevice where
  | cpu
  | intel
  | nvidia
deriving DecidableEq, Repr

/-- `WatermarkSettings` dataclass (`models.py`).  `image_path` is stored as a
path string (`str(Path(p))` round-trip is modelled as the identity on the
already-resolved path strings the system passes around). -/
structure WatermarkSettings where
  type : WatermarkType
  text : Option (List Char) := none
  font_path : Option (List Char) := none
  font_size : ℕ := 36
  color : List Char := chars "white"
  image_path : Option (List Char) := none
  opacity : ℚ := 1
  position : AnchorPos := AnchorPos.topRight
  offset_x : ℤ := 20
  offset_y : ℤ := 20
deriving DecidableEq, Repr

/-- The immutable inputs of a `Job` (`models.py`): input files, watermark
spec, output format, output directory, target device and metadata map
(a `Dict[str, str]`, modelled as an association list looked up first-match,
as inserted). The mutable execution state lives in `JobState` below. -/
structure Job where
  input_files : List (List Char)
  watermark : WatermarkSettings
  output_format : List Char := chars "mp4"
  output_dir : List Char := chars "output"
  target_device : TargetDevice := TargetDevice.cpu
  metadata : List (List Char × List Char) := []
deriving DecidableEq, Repr

/-- `dict.get(key, default)` on the metadata mapping. -/
def dictGetD (m : List (List Char × List Char)) (key dflt : List Char) : List Char :=
  match m.lookup key with
  | some v => v
  | none => dflt

/- ----------------------------------------------------------------
   Numeric rendering helpers
   ---------------------------------------------------------------- -/

/-- Python `str(n)` for a natural number. -/
def natChars (n : ℕ) : List Char :=
  Nat.toDigits 10 n

/-- Python `str(i)` for an integer. -/
def intChars (i : ℤ) : List Char :=
  if i < 0 then '-' :: natChars i.natAbs else natChars i.natAbs

/-- Round-half-to-even (the rounding used when Python formats a float with
`.2f`). -/
def roundHalfEven (q : ℚ) : ℤ :=
  let f := ⌊q⌋
  if q - f < 1 / 2 then f
  else if q - f > 1 / 2 then f + 1
  else if 2 ∣ f then f else f + 1

/-- Two-digit zero-padded rendering of `k < 100`. -/
def pad2 (k : ℕ) : List Char :=
  if k < 10 then '0' :: natChars k else natChars k

/-- Python `f"{x:.2f}"`: fixed-point rendering with two decimals. -/
def fmt2 (q : ℚ) : List Char :=
  let n := roundHalfEven (q * 100)
  let sign : List Char := if n < 0 then ['-'] else []
  sign ++ natChars (n.natAbs / 100) ++ '.' :: pad2 (n.natAbs % 100)

/- ----------------------------------------------------------------
   Template formatting (`str.format` on the POSITION_MAP templates)
   ---------------------------------------------------------------- -/

/-- Fuel-driven single-pattern search-and-replace, scanning left to right.
`raGo pat repl fuel s` replaces each occurrence of `pat` in `s` by `repl`,
provided `fuel ≥ s.length`; structural recursion on the fuel keeps the
definition kernel-reducible. -/
def raGo (pat repl : List Char) : ℕ → List Char → List Char
  | _, [] => []
  | 0, s => s
  | fuel + 1, c :: rest =>
    if pat ≠ [] ∧ pat.isPrefixOf (c :: rest) then
      repl ++ raGo pat repl fuel ((c :: rest).drop pat.length)
    else
      c :: raGo pat repl fuel rest

/-- `s.replace(pat, repl)` for a non-overlapping pattern; used to model the
`{x_offset}` / `{y_offset}` substitution done by `str.format` on the
`POSITION_MAP` templates in `watermark.py`. -/
def replaceAll (pat repl s : List Char) : List Char :=
  raGo pat repl s.length s

/-- The `{x_offset}` placeholder appearing in the templates. -/
def xOffsetTok : List Char :=
  chars "\x7bx_offset\x7d"

/-- The `{y_offset}` placeholder appearing in the templates. -/
def yOffsetTok : List Char :=
  chars "\x7by_offset\x7d"

/-- `POSITION_MAP` (`watermark.py` lines 10–16): template pair per anchor. -/
def POSITION_MAP : AnchorPos → List Char × List Char
  | AnchorPos.topLeft => (xOffsetTok, yOffsetTok)
  | AnchorPos.topRight => (chars "W-w-" ++ xOffsetTok, yOffsetTok)
  | AnchorPos.bottomLeft => (xOffsetTok, chars "H-h-" ++ yOffsetTok)
  | AnchorPos.bottomRight => (chars "W-w-" ++ xOffsetTok, chars "H-h-" ++ yOffsetTok)
  | AnchorPos.center => (chars "(W-w)/2", chars "(H-h)/2")

/-- Lines 31–33 of `watermark.py`: look the anchor up in `POSITION_MAP` and
substitute the numeric offsets into the templates
(`x_expr.format(x_offset=...)`, `y_expr.format(y_offset=...)`). -/
def resolveXY (w : WatermarkSettings) : List Char × List Char :=
  let p := POSITION_MAP w.position
  (replaceAll xOffsetTok (intChars w.offset_x) p.1,
   replaceAll yOffsetTok (intChars w.offset_y) p.2)

/- ----------------------------------------------------------------
   escape_text (`watermark.py` lines 19–23)
   ---------------------------------------------------------------- -/

/-- Python `s.replace(a, b)` for a single-character pattern `a`. -/
def replaceChar (a : Char) (b : List Char) (s : List Char) : List Char :=
  s.flatMap fun c => if c = a then b else [c]

/-- `escape_text` (`watermark.py`): escape text for ffmpeg drawtext by
replacing `\` with `\\`, then `:` with `\:`, then `'` with `\'`. -/
def escape_text (s : List Char) : List Char :=
  let e1 := replaceChar '\\' ['\\', '\\'] s
  let e2 := replaceChar ':' ['\\', ':'] e1
  replaceChar '\'' ['\\', '\''] e2

/-- Single-pass description of the same escaping: each character is expanded
independently, so the backslashes introduced for `:` and `'` are never
re-escaped.  Used to characterise `escape_text`. -/
def escCharSpec (c : Char) : List Char :=
  if c = '\\' then ['\\', '\\']
  else if c = ':' then ['\\', ':']
  else if c = '\'' then ['\\', '\'']
  else [c]

/-- `true` iff the string has no colon that is not immediately preceded by a
backslash (a backslash consumes the character after it, as in the ffmpeg
filter mini-language). -/
def noUnescapedColon : List Char → Bool
  | [] => true
  | c :: rest =>
    if c = '\\' then
      match rest with
      | [] => true
      | _ :: r2 => noUnescapedColon r2
    else if c = ':' then false
    else noUnescapedColon rest

/- ----------------------------------------------------------------
   build_filter_and_inputs / build_ffmpeg_command (`watermark.py`)
   ---------------------------------------------------------------- -/

/-- The `color` local of the text branch (`watermark.py` lines 36–39):
suffix `@<opacity:.2f>` exactly when opacity < 1.0. -/
def textFontColor (w : WatermarkSettings) : List Char :=
  if w.opacity < 1 then w.color ++ '@' :: fmt2 w.opacity else w.color

/-- The `drawtext=` filter expression assembled on lines 40–50 of
`watermark.py`: the ordered fields `text`, `fontcolor`, `fontsize`, `x`, `y`
and, when a font path is present, `fontfile`, joined with `:` —
`":".join(f"{key}={value}" ...)` over the insertion-ordered dict. -/
def drawtextExpr (w : WatermarkSettings) (xe ye : List Char) : List Char :=
  chars "drawtext=text=" ++ escape_text (w.text.getD [])
    ++ chars ":fontcolor=" ++ textFontColor w
    ++ chars ":fontsize=" ++ natChars w.font_size
    ++ chars ":x=" ++ xe
    ++ chars ":y=" ++ ye
    ++ (match w.font_path with
        | some p => chars ":fontfile=" ++ p
        | none => [])

/-- The overlay expression of the image branch (`watermark.py` lines 56–57). -/
def overlayExpr (w : WatermarkSettings) (xe ye : List Char) : List Char :=
  chars "[1]format=rgba,colorchannelmixer=aa=" ++ fmt2 w.opacity
    ++ chars "[wm];[0][wm]overlay=" ++ xe ++ ':' :: ye

/-- `build_filter_and_inputs(job)` (`watermark.py` lines 25–60): returns the
pair `(extra_inputs, filter_complex)`, or the `ValueError` message raised when
an image watermark has no image path. -/
def build_filter_and_inputs (job : Job) :
    Except (List Char) (List (List Char) × List (List Char)) :=
  let w := job.watermark
  let xy := resolveXY w
  match w.type with
  | WatermarkType.text =>
    Except.ok ([], [drawtextExpr w xy.1 xy.2])
  | WatermarkType.image =>
    match w.image_path with
    | none => Except.error (chars "Image watermark requires an image path")
    | some p => Except.ok ([chars "-i", p], [overlayExpr w xy.1 xy.2])

/-- `";".join(filters)`. -/
def joinSemicolon (l : List (List Char)) : List Char :=
  List.intercalate [';'] l

/-- The video-codec clause of `build_ffmpeg_command` (`watermark.py` lines
69–74), selected by target device. -/
def codecClause (job : Job) : List (List Char) :=
  match job.target_device with
  | TargetDevice.cpu =>
    [chars "-c:v", chars "libx264", chars "-preset",
     dictGetD job.metadata (chars "preset") (chars "medium")]
  | TargetDevice.intel => [chars "-c:v", chars "h264_qsv"]
  | TargetDevice.nvidia => [chars "-c:v", chars "h264_nvenc"]

/-- `build_ffmpeg_command(job, input_file, output_file)` (`watermark.py`
lines 63–76): the ordered argument list, or the propagated build error. -/
def build_ffmpeg_command (job : Job) (input_file output_file : List Char) :
    Except (List Char) (List (List Char)) :=
  (build_filter_and_inputs job).map fun fi =>
    [dictGetD job.metadata (chars "ffmpeg_binary") (chars "ffmpeg"),
     chars "-y", chars "-i", input_file]
    ++ fi.1
    ++ (if fi.2 ≠ [] then [chars "-filter_complex", joinSemicolon fi.2] else [])
    ++ codecClause job
    ++ [chars "-c:a", chars "copy", output_file]

/-- The character class `shlex.quote` leaves unquoted: ASCII letters,
digits, and the characters underscore, at, percent, plus, equals, colon,
comma, dot, slash, dash. -/
def shlexSafeChar (c : Char) : Bool :=
  (('a' ≤ c ∧ c ≤ 'z') ∨ ('A' ≤ c ∧ c ≤ 'Z') ∨ ('0' ≤ c ∧ c ≤ '9')
    ∨ c = '_' ∨ c = '@' ∨ c = '%' ∨ c = '+' ∨ c = '='
    ∨ c = ':' ∨ c = ',' ∨ c = '.' ∨ c = '/' ∨ c = '-' : Prop)

/-- `shlex.quote(s)`: empty becomes `''`; strings of safe characters pass
through; anything else is wrapped in single quotes with embedded single
quotes rendered as `'"'"'`. -/
def shlexQuote (s : List Char) : List Char :=
  if s = [] then chars "''"
  else if s.all shlexSafeChar then s
  else '\'' :: (s.flatMap fun c =>
    if c = '\'' then chars "'\"'\"'" else [c]) ++ ['\'']

/-- `" ".join(...)`. -/
def joinSpace (l : List (List Char)) : List Char :=
  List.intercalate [' '] l

/-- `command_as_string(cmd)` (`watermark.py` lines 79–80): each token is
shell-quoted individually and the quoted tokens are joined with spaces. -/
def command_as_string (cmd : List (List Char)) : List Char :=
  joinSpace (cmd.map shlexQuote)

/- ----------------------------------------------------------------
   create_job target-device coercion (`ffmpeg_queue.py` lines 43–46)
   ---------------------------------------------------------------- -/

/-- The raw device strings accepted by `create_job`. -/
def deviceStrings : List (List Char) :=
  [chars "cpu", chars "intel", chars "nvidia"]

/-- Map a raw device string known to be one of the three to the enum;
anything else maps to `cpu`. -/
def parseDevice (s : List Char) : TargetDevice :=
  if s = chars "intel" then TargetDevice.intel
  else if s = chars "nvidia" then TargetDevice.nvidia
  else TargetDevice.cpu

/-- Lines 43–46 of `ffmpeg_queue.py`: `create_job` coerces the raw
target-device selector before storing it on the job — unknown selectors
become `cpu`, and any non-`cpu` selector becomes `cpu` when the GPU-allow
flag is off. -/
def create_job_device (raw : List Char) (allow_gpu : Bool) : TargetDevice :=
  let d1 := if raw ∈ deviceStrings then raw else chars "cpu"
  let d2 := if d1 ≠ chars "cpu" ∧ allow_gpu = false then chars "cpu" else d1
  parseDevice d2

/- ----------------------------------------------------------------
   Worker dispatch and the retire sentinel (`ffmpeg_queue.py`)
   ---------------------------------------------------------------- -/

/-- The `"__stop__"` retire token posted by `_resize_workers` (resize-down)
and `shutdown`. -/
def STOP_SENTINEL : List Char :=
  chars "__stop__"

/-- What a worker does with one dequeued token. -/
inductive WorkerAct where
  | exitLoop
  | handle
deriving DecidableEq, Repr

/-- Lines 92–108 of `ffmpeg_queue.py`: a worker that dequeues the retire
sentinel exits its loop; any other token is treated as a job identifier
(looked up and run, or skipped if unknown). -/
def workerDecision (token : List Char) : WorkerAct :=
  if token = STOP_SENTINEL then WorkerAct.exitLoop else WorkerAct.handle

/-- `true` for the characters `uuid.uuid4().hex` can produce: lowercase
hexadecimal digits. -/
def isUuidHexChar (c : Char) : Bool :=
  (('0' ≤ c ∧ c ≤ '9') ∨ ('a' ≤ c ∧ c ≤ 'f') : Prop)

/-- Shape of a job identifier generated by `models.py` line 51
(`uuid.uuid4().hex`): exactly 32 lowercase hexadecimal characters. -/
def isJobIdShape (s : List Char) : Prop :=
  s.length = 32 ∧ ∀ c ∈ s, isUuidHexChar c = true

instance (s : List Char) : Decidable (isJobIdShape s) := by
  unfold isJobIdShape; infer_instance

/- ----------------------------------------------------------------
   Settings validation and reconfiguration
   (`schemas.py` SettingsUpdate, `ffmpeg_queue.py` update_settings)
   ---------------------------------------------------------------- -/

/-- The partial reconfiguration payload (`schemas.py` `SettingsUpdate`). -/
structure SettingsUpdate where
  max_parallel_jobs : Option ℤ := none
  allow_gpu : Option Bool := none
  default_output_format : Option (List Char) := none
  ffmpeg_binary : Option (List Char) := none
deriving DecidableEq, Repr

/-- The `default_output_format` validator (`schemas.py` lines 85–89):
a supplied empty format string is rejected. -/
def checkOutputFormat (p : SettingsUpdate) : Except (List Char) SettingsUpdate :=
  match p.default_output_format with
  | some f => if f = [] then Except.error (chars "default_output_format cannot be empty")
              else Except.ok p
  | none => Except.ok p

/-- Schema validation of a reconfiguration payload (`schemas.py` lines
73–89): `max_parallel_jobs < 1` and an empty `default_output_format` are
rejected; this runs before `update_settings` ever sees the payload. -/
def validate_settings_update (p : SettingsUpdate) : Except (List Char) SettingsUpdate :=
  match p.max_parallel_jobs with
  | some m => if m < 1 then Except.error (chars "max_parallel_jobs must be >= 1")
              else checkOutputFormat p
  | none => checkOutputFormat p

/-- Process-wide configuration plus the worker-pool size
(`config.py` `Settings` together with `FFmpegQueue._workers`). -/
structure PoolState where
  max_parallel_jobs : ℤ
  allow_gpu : Bool
  default_output_format : List Char
  ffmpeg_binary : List Char
  worker_count : ℕ
deriving DecidableEq, Repr

/-- `FFmpegQueue.update_settings` (`ffmpeg_queue.py` lines 120–138) on a
validated payload: absent fields are left unchanged; a changed
`max_parallel_jobs` triggers `_resize_workers`, whose effect on the live
worker count (spawn up / retire down) is modelled as setting it to the new
target. -/
def update_settings (p : SettingsUpdate) (st : PoolState) : PoolState :=
  let st1 := match p.max_parallel_jobs with
    | some m =>
      if m ≠ st.max_parallel_jobs then
        { st with max_parallel_jobs := m, worker_count := m.toNat }
      else st
    | none => st
  let st2 := match p.default_output_format with
    | some f => { st1 with default_output_format := f }
    | none => st1
  let st3 := match p.ffmpeg_binary with
    | some b => { st2 with ffmpeg_binary := b }
    | none => st2
  match p.allow_gpu with
  | some g => { st3 with allow_gpu := g }
  | none => st3

/-- The PATCH settings endpoint (`main.py` lines 154–162): the payload is
validated by the schema first; only a valid payload reaches
`update_settings`. -/
def settings_endpoint (p : SettingsUpdate) (st : PoolState) :
    Except (List Char) PoolState :=
  (validate_settings_update p).map fun q => update_settings q st

/-- The configuration in effect after the reconfiguration request: the new
state on success, the prior state when the request was rejected. -/
def settings_endpoint_result (p : SettingsUpdate) (st : PoolState) : PoolState :=
  match settings_endpoint p st with
  | Except.ok s => s
  | Except.error _ => st

/- ----------------------------------------------------------------
   Path helpers (pathlib `Path.name` / `Path.stem`, POSIX separators)
   ---------------------------------------------------------------- -/

/-- `Path(p).name`: the final `/`-separated component. -/
def pathName (p : List Char) : List Char :=
  (p.splitOn '/').getLastD []

/-- `PurePath.stem` applied to a final component: drop the extension that
starts at the last dot, provided that dot is neither the first nor the last
character of the name. -/
def stemOfName (name : List Char) : List Char :=
  let dots := (List.range name.length).filter fun i => name.getD i ' ' = '.'
  match dots.getLast? with
  | some i => if 0 < i ∧ i + 1 < name.length then name.take i else name
  | none => name

/-- `Path(p).stem`. -/
def pathStem (p : List Char) : List Char :=
  stemOfName (pathName p)

/-- Line 166 of `ffmpeg_queue.py`:
`output_filename = f"{input_file.stem}_watermarked.{job.output_format}"`. -/
def outputName (job : Job) (f : List Char) : List Char :=
  pathStem f ++ chars "_watermarked." ++ job.output_format

/-- Line 167: `output_path = job.output_dir / output_filename`. -/
def outputPath (job : Job) (f : List Char) : List Char :=
  job.output_dir ++ '/' :: outputName job f

/- ----------------------------------------------------------------
   _run_job / _execute_ffmpeg (`ffmpeg_queue.py` lines 156–197)
   ---------------------------------------------------------------- -/

/-- Why an input failed: the `ValueError` message raised while building the
command, or the non-zero exit code wrapped in the `RuntimeError` raised by
`_execute_ffmpeg`. -/
inductive FailReason where
  | buildError (msg : List Char)
  | exitCode (code : ℤ)
deriving DecidableEq, Repr

/-- The job log, with each appended line represented structurally (the
`[timestamp] ` prefix added by `Job.append_log` carries no information used
by any claim and is not modelled):
`created` = "Job created and queued"; `starting n` = "Starting job with n
file(s)"; `processing a b` = "Processing a -> b"; `command s` = "Command: s"
(with `s` the shell-quoted rendering); `ffmpegLine l` = one streamed line of
transcoder output; `fileCompleted a` = "Completed a"; `failedEntry r` =
"Failed: ..."; `finishedOk` = "Job finished successfully". -/
inductive LogEntry where
  | created
  | starting (n : ℕ)
  | processing (inputName outName : List Char)
  | command (rendered : List Char)
  | ffmpegLine (line : List Char)
  | fileCompleted (name : List Char)
  | failedEntry (reason : FailReason)
  | finishedOk
deriving DecidableEq, Repr

/-- Outcome of one external `ffmpeg` process run: the streamed output lines
(already stripped) and the exit code.  Supplied by the environment. -/
structure ExecResult where
  outputLines : List (List Char) := []
  exitCode : ℤ := 0
deriving DecidableEq, Repr

/-- The mutable execution state of a `Job` (`models.py`): status, progress,
timestamps and log.  `progress_history` is ghost state recording every value
the `progress` field takes, used to state progress monotonicity. -/
structure JobState where
  status : JobStatus
  progress : ℚ
  started_at : Option ℕ
  finished_at : Option ℕ
  log : List LogEntry
  progress_history : List ℚ
deriving DecidableEq, Repr

/-- The state of a job fresh out of `create_job` (`models.py` defaults plus
the "Job created and queued" log line appended on line 71 of
`ffmpeg_queue.py`). -/
def initJobState : JobState :=
  { status := JobStatus.queued
    progress := 0
    started_at := none
    finished_at := none
    log := [LogEntry.created]
    progress_history := [0] }

/-- The per-input loop of `_run_job` (`ffmpeg_queue.py` lines 164–179),
with `_execute_ffmpeg` (lines 185–197) inlined: build the command (a
`ValueError` here is caught by the `except` block), log the
"Processing"/"Command" lines, stream the process output into the log, then
either fail the job (non-zero exit: status `failed`, `finished_at` stamped,
failure logged, remaining inputs abandoned — the Python `return`) or log
completion of the file and set `progress = index / total`.  `env i` is the
external process outcome for the 1-based input index `i`; `tF` is the
`time.time()` reading that stamps `finished_at`.  `Except.error` carries the
early-returned failed state. -/
def runInputs (job : Job) (env : ℕ → ExecResult) (tF : ℕ) (n : ℕ) :
    List (List Char) → ℕ → JobState → Except JobState JobState
  | [], _, st => Except.ok st
  | f :: rest, i, st =>
    match build_ffmpeg_command job f (outputPath job f) with
    | Except.error msg =>
      Except.error { st with
        status := JobStatus.failed
        finished_at := some tF
        log := st.log ++ [LogEntry.failedEntry (FailReason.buildError msg)] }
    | Except.ok cmd =>
      let r := env i
      let st1 := { st with log := st.log
        ++ [LogEntry.processing (pathName f) (outputName job f),
            LogEntry.command (command_as_string cmd)]
        ++ r.outputLines.map LogEntry.ffmpegLine }
      if r.exitCode ≠ 0 then
        Except.error { st1 with
          status := JobStatus.failed
          finished_at := some tF
          log := st1.log ++ [LogEntry.failedEntry (FailReason.exitCode r.exitCode)] }
      else
        runInputs job env tF n rest (i + 1)
          { st1 with
            log := st1.log ++ [LogEntry.fileCompleted (pathName f)]
            progress := (i : ℚ) / (n : ℚ)
            progress_history := st1.progress_history ++ [(i : ℚ) / (n : ℚ)] }

/-- `_run_job` (`ffmpeg_queue.py` lines 156–183): guard against
already-terminal states, transition to `running` stamping `started_at` with
the clock reading `tS`, log the start message, process the inputs in order,
and on falling out of the loop transition to `completed`, stamping
`finished_at` with `tF` and logging the completion message. -/
def run_job (job : Job) (env : ℕ → ExecResult) (tS tF : ℕ) (st : JobState) :
    JobState :=
  if st.status = JobStatus.cancelled ∨ st.status = JobStatus.completed then st
  else
    let n := job.input_files.length
    let st0 := { st with
      status := JobStatus.running
      started_at := some tS
      log := st.log ++ [LogEntry.starting n] }
    match runInputs job env tF n job.input_files 1 st0 with
    | Except.error stFail => stFail
    | Except.ok st1 =>
      { st1 with
        status := JobStatus.completed
        finished_at := some tF
        log := st1.log ++ [LogEntry.finishedOk] }

/- ----------------------------------------------------------------
   Claims C1–C3
   ---------------------------------------------------------------- -/

/-- A text-watermark job whose font file path contains a colon (any ordinary
Windows font path, e.g. `C:/Fonts/arial.ttf`, has one).  All other fields
are the model defaults. -/
def fontPathJob : Job :=
  { input_files := [chars "a.mp4"]
    watermark := { type := WatermarkType.text
                   text := some (chars "hello")
                   font_path := some (chars "C:/Fonts/arial.ttf") } }

/-- The spec's worked example: a `top-right` watermark with offsets
(20, 20). -/
def wmTopRight : WatermarkSettings :=
  { type := WatermarkType.text
    position := AnchorPos.topRight
    offset_x := 20
    offset_y := 20 }

/-- A half-opacity text watermark used to witness C6. -/
def wmHalf : WatermarkSettings :=
  { type := WatermarkType.text, text := some (chars "hi"), opacity := 1 / 2 }

/-- A half-opacity image-watermark job used to witness C6. -/
def imgJobHalf : Job :=
  { input_files := [chars "a.mp4"]
    watermark := { type := WatermarkType.image
                   image_path := some (chars "wm.png")
                   opacity := 1 / 2 } }

/-- An invalid reconfiguration payload: worker count 0. -/
def zeroWorkersUpdate : SettingsUpdate :=
  { max_parallel_jobs := some 0 }

/-- A concrete running configuration. -/
def examplePool : PoolState :=
  { max_parallel_jobs := 2
    allow_gpu := false
    default_output_format := chars "mp4"
    ffmpeg_binary := chars "ffmpeg"
    worker_count := 2 }

/- ----------------------------------------------------------------
   Per-input outcome predicates and expected log shapes
   ---------------------------------------------------------------- -/

/-- Command building cannot fail for this job (the only `ValueError` in
`build_filter_and_inputs` is the image-without-path case). -/
def buildErrFree (job : Job) : Prop :=
  ¬(job.watermark.type = WatermarkType.image ∧ job.watermark.image_path = none)

instance (job : Job) : Decidable (buildErrFree job) := by
  unfold buildErrFree; infer_instance

/-- Input `i` (1-based) of the job succeeds: its command builds and the
external process exits with code 0. -/
def inputOk (job : Job) (env : ℕ → ExecResult) (i : ℕ) : Prop :=
  buildErrFree job ∧ (env i).exitCode = 0

instance (job : Job) (env : ℕ → ExecResult) (i : ℕ) :
    Decidable (inputOk job env i) := by
  unfold inputOk; infer_instance

/-- The command built for input file `f` of the job (meaningful when
`buildErrFree job`). -/
def builtCmd (job : Job) (f : List Char) : List (List Char) :=
  match build_ffmpeg_command job f (outputPath job f) with
  | Except.ok c => c
  | Except.error _ => []

/-- The log entries a successful input `f` at index `i` contributes. -/
def okBlock (job : Job) (env : ℕ → ExecResult) (i : ℕ) (f : List Char) :
    List LogEntry :=
  [LogEntry.processing (pathName f) (outputName job f),
   LogEntry.command (command_as_string (builtCmd job f))]
  ++ (env i).outputLines.map LogEntry.ffmpegLine
  ++ [LogEntry.fileCompleted (pathName f)]

/-- The log entries contributed by the successive successful inputs `fs`
starting at index `i`. -/
def okBlocks (job : Job) (env : ℕ → ExecResult) :
    List (List Char) → ℕ → List LogEntry
  | [], _ => []
  | f :: rest, i => okBlock job env i f ++ okBlocks job env rest (i + 1)

/-- The log entries the failing input `f` at index `i` contributes: just the
failure line when the command build raises, or the processing/command/output
lines followed by the failure line when the process exits non-zero. -/
def failBlock (job : Job) (env : ℕ → ExecResult) (i : ℕ) (f : List Char) :
    List LogEntry :=
  match build_ffmpeg_command job f (outputPath job f) with
  | Except.error msg => [LogEntry.failedEntry (FailReason.buildError msg)]
  | Except.ok cmd =>
    [LogEntry.processing (pathName f) (outputName job f),
     LogEntry.command (command_as_string cmd)]
    ++ (env i).outputLines.map LogEntry.ffmpegLine
    ++ [LogEntry.failedEntry (FailReason.exitCode (env i).exitCode)]

/-- State reached after the inputs `fs` (indices `i, i+1, ...` of `n` total)
all succeed, starting from `st`. -/
def afterOk (job : Job) (env : ℕ → ExecResult) (n : ℕ)
    (fs : List (List Char)) (i : ℕ) (st : JobState) : JobState :=
  { st with
    progress := if fs.length = 0 then st.progress
      else ((i + fs.length - 1 : ℕ) : ℚ) / (n : ℚ)
    log := st.log ++ okBlocks job env fs i
    progress_history := st.progress_history
      ++ (List.range' i fs.length).map (fun j => ((j : ℕ) : ℚ) / (n : ℚ)) }

/-- `true` on the "Failed: ..." log entries. -/
def isFailureEntry : LogEntry → Bool
  | LogEntry.failedEntry _ => true
  | _ => false

/-- `true` on the "Job finished successfully" completion log entry. -/
def isCompletionEntry : LogEntry → Bool
  | LogEntry.finishedOk => true
  | _ => false

/-- A two-input text job used to witness C4 and C5. -/
def job4 : Job :=
  { input_files := [chars "a.mp4", chars "b.mp4"]
    watermark := { type := WatermarkType.text, text := some (chars "hi") } }

/-- Environment in which input 2 exits with code 1 and every other input
succeeds silently. -/
def env4 : ℕ → ExecResult :=
  fun i => if i = 2 then { outputLines := [], exitCode := 1 } else { }

/-- Environment in which every input succeeds with no output. -/
def envOk : ℕ → ExecResult :=
  fun _ => { }

/- ----------------------------------------------------------------
   Helper lemmas: escape_text
   ---------------------------------------------------------------- -/

theorem replaceChar_append (a : Char) (b : List Char) (s t : List Char) :
    replaceChar a b (s ++ t) = replaceChar a b s ++ replaceChar a b t := by
  simp [replaceChar]

theorem escape_text_append (s t : List Char) :
    escape_text (s ++ t) = escape_text s ++ escape_text t := by
  simp [escape_text, replaceChar_append]

theorem escape_text_single (c : Char) :
    escape_text [c] = escCharSpec c := by
  by_cases h1 : c = '\\'
  · subst h1; rfl
  · by_cases h2 : c = ':'
    · subst h2; rfl
    · by_cases h3 : c = '\''
      · subst h3; rfl
      · simp [escape_text, replaceChar, escCharSpec, h1, h2, h3]

theorem escape_text_eq_flatMap (s : List Char) :
    escape_text s = s.flatMap escCharSpec := by
  induction s with
  | nil => rfl
  | cons c s ih =>
    have : c :: s = [c] ++ s := rfl
    rw [this, escape_text_append, escape_text_single, List.flatMap_append, ih]
    simp

theorem noUnescapedColon_cons_bslash (x : Char) (rest : List Char) :
    noUnescapedColon ('\\' :: x :: rest) = noUnescapedColon rest := rfl

theorem noUnescapedColon_cons_other (c : Char) (rest : List Char)
    (h1 : c ≠ '\\') (h2 : c ≠ ':') :
    noUnescapedColon (c :: rest) = noUnescapedColon rest := by
  rw [noUnescapedColon.eq_def]
  simp [if_neg h1, if_neg h2]

theorem noUnescapedColon_escape_text (s : List Char) :
    noUnescapedColon (escape_text s) = true := by
  rw [escape_text_eq_flatMap]
  induction s with
  | nil => rfl
  | cons c s ih =>
    rw [List.flatMap_cons]
    by_cases h1 : c = '\\'
    · subst h1; simpa [escCharSpec, noUnescapedColon_cons_bslash] using ih
    · by_cases h2 : c = ':'
      · subst h2; simpa [escCharSpec, noUnescapedColon_cons_bslash] using ih
      · by_cases h3 : c = '\''
        · subst h3; simpa [escCharSpec, noUnescapedColon_cons_bslash] using ih
        · rw [show escCharSpec c = [c] by simp [escCharSpec, h1, h2, h3],
              List.singleton_append, noUnescapedColon_cons_other c _ h1 h2]
          exact ih

/-- C1: the claim states that every dynamic string entering the filter
expression — including the optional font file path — is escaped for the
filter-graph mini-language.  The code escapes only the text: on
`fontPathJob` the built drawtext expression ends in the raw, unescaped
`fontfile=C:/Fonts/arial.ttf`, although escaping the path would have changed
it (to `C\:/Fonts/arial.ttf`) and the raw path fails the
unescaped-colon check.  This contradicts the spec's escaping discipline. -/
theorem c1_fontfile_not_escaped :
    build_filter_and_inputs fontPathJob = Except.ok ([],
      [chars "drawtext=text=hello:fontcolor=white:fontsize=36:x=W-w-20:y=20:fontfile=C:/Fonts/arial.ttf"]) ∧
    escape_text (chars "C:/Fonts/arial.ttf") = chars "C\\:/Fonts/arial.ttf" ∧
    noUnescapedColon (chars "C:/Fonts/arial.ttf") = false :=
  ⟨rfl, rfl, rfl⟩

/-- C2: `escape_text` backslash-escapes `\`, `:` and `'`, escaping `\`
first; it equals the single-pass per-character expansion (so backslashes
introduced for `:`/`'` are never double-escaped), `"Hi: there"` maps to
`Hi\: there`, and the escaped text never contains an unescaped colon. -/
theorem c2_escape_text_discipline :
    escape_text (chars "Hi: there") = chars "Hi\\: there" ∧
    (∀ s, escape_text s = s.flatMap escCharSpec) ∧
    (∀ s, noUnescapedColon (escape_text s) = true) :=
  ⟨rfl, escape_text_eq_flatMap, noUnescapedColon_escape_text⟩

/-- C3: for every watermark spec, the resolved x/y expressions follow the
fixed `POSITION_MAP` table exactly, with the numeric offsets substituted
into the corner templates and ignored for `center`. -/
theorem c3_position_table (w : WatermarkSettings) :
    (w.position = AnchorPos.topLeft →
      resolveXY w = (intChars w.offset_x, intChars w.offset_y)) ∧
    (w.position = AnchorPos.topRight →
      resolveXY w = (chars "W-w-" ++ intChars w.offset_x, intChars w.offset_y)) ∧
    (w.position = AnchorPos.bottomLeft →
      resolveXY w = (intChars w.offset_x, chars "H-h-" ++ intChars w.offset_y)) ∧
    (w.position = AnchorPos.bottomRight →
      resolveXY w = (chars "W-w-" ++ intChars w.offset_x,
        chars "H-h-" ++ intChars w.offset_y)) ∧
    (w.position = AnchorPos.center →
      resolveXY w = (chars "(W-w)/2", chars "(H-h)/2")) := by
  have hx1 : ∀ v, replaceAll xOffsetTok v xOffsetTok = v ++ [] := fun v => rfl
  have hx2 : ∀ v, replaceAll xOffsetTok v (chars "W-w-" ++ xOffsetTok)
      = chars "W-w-" ++ (v ++ []) := fun v => rfl
  have hx3 : ∀ v, replaceAll xOffsetTok v (chars "(W-w)/2") = chars "(W-w)/2" :=
    fun v => rfl
  have hy1 : ∀ v, replaceAll yOffsetTok v yOffsetTok = v ++ [] := fun v => rfl
  have hy2 : ∀ v, replaceAll yOffsetTok v (chars "H-h-" ++ yOffsetTok)
      = chars "H-h-" ++ (v ++ []) := fun v => rfl
  have hy3 : ∀ v, replaceAll yOffsetTok v (chars "(H-h)/2") = chars "(H-h)/2" :=
    fun v => rfl
  refine ⟨fun h => ?_, fun h => ?_, fun h => ?_, fun h => ?_, fun h => ?_⟩ <;>
    simp [resolveXY, POSITION_MAP, h, hx1, hx2, hx3, hy1, hy2, hy3]

/-- Witness for C3 at the concrete example from the spec: position
`top-right`, offsets (20, 20) resolve to `x="W-w-20"`, `y="20"`. -/
theorem c3_position_table_witness :
    wmTopRight.position = AnchorPos.topRight ∧
    resolveXY wmTopRight = (chars "W-w-20", chars "20") := by
  refine ⟨rfl, ?_⟩
  rw [(c3_position_table wmTopRight).2.1 rfl]
  rfl

/- ----------------------------------------------------------------
   Claims C6–C7
   ---------------------------------------------------------------- -/

theorem build_filter_error_iff (job : Job) :
    (∃ m, build_filter_and_inputs job = Except.error m) ↔
      (job.watermark.type = WatermarkType.image ∧
        job.watermark.image_path = none) := by
  cases htype : job.watermark.type <;>
    cases hpath : job.watermark.image_path <;>
      simp [build_filter_and_inputs, htype, hpath]

theorem build_cmd_error_iff (job : Job) (inf outf : List Char) :
    (∃ m, build_ffmpeg_command job inf outf = Except.error m) ↔
      (job.watermark.type = WatermarkType.image ∧
        job.watermark.image_path = none) := by
  rw [← build_filter_error_iff job]
  cases hfi : build_filter_and_inputs job <;>
    simp [build_ffmpeg_command, hfi, Except.map]

theorem build_filter_ok_nonempty (job : Job) (ins fil : List (List Char))
    (hfi : build_filter_and_inputs job = Except.ok (ins, fil)) : fil ≠ [] := by
  cases htype : job.watermark.type <;>
    cases hpath : job.watermark.image_path <;>
      simp [build_filter_and_inputs, htype, hpath] at hfi <;>
        (rcases hfi with ⟨-, hfil⟩; rw [← hfil]; simp)

/-- C6: for a text watermark the font color carries the `@<opacity:.2f>`
suffix exactly when opacity < 1.0 (at 1.0 the color is used bare), while an
image watermark always gets the `colorchannelmixer` alpha stage with the
two-decimal opacity, opacity 1.0 included. -/
theorem c6_opacity_suffix (job : Job) :
    (job.watermark.opacity < 1 →
      textFontColor job.watermark
        = job.watermark.color ++ '@' :: fmt2 job.watermark.opacity) ∧
    (job.watermark.opacity = 1 →
      textFontColor job.watermark = job.watermark.color) ∧
    (∀ p, job.watermark.type = WatermarkType.image →
      job.watermark.image_path = some p →
      build_filter_and_inputs job = Except.ok ([chars "-i", p],
        [chars "[1]format=rgba,colorchannelmixer=aa=" ++ fmt2 job.watermark.opacity
          ++ chars "[wm];[0][wm]overlay=" ++ (resolveXY job.watermark).1
          ++ ':' :: (resolveXY job.watermark).2])) := by
  refine ⟨fun h => ?_, fun h => ?_, fun p ht hp => ?_⟩
  · rw [textFontColor, if_pos h]
  · rw [textFontColor, if_neg (by rw [h]; exact lt_irrefl 1)]
  · simp [build_filter_and_inputs, ht, hp, overlayExpr]

/-- Witness for C6: opacity 0.5 yields the `white@0.50` font color for text
and the `aa=0.50` mixer stage for an image watermark. -/
theorem c6_opacity_suffix_witness :
    ((1 : ℚ) / 2 < 1) ∧
    textFontColor wmHalf = chars "white@0.50" ∧
    imgJobHalf.watermark.type = WatermarkType.image ∧
    build_filter_and_inputs imgJobHalf = Except.ok
      ([chars "-i", chars "wm.png"],
       [chars "[1]format=rgba,colorchannelmixer=aa=0.50[wm];[0][wm]overlay=W-w-20:20"]) := by
  have h1 : (1 : ℚ) / 2 < 1 := by norm_num
  have hf : fmt2 ((1 : ℚ) / 2) = chars "0.50" := by
    norm_num [fmt2, roundHalfEven]
    decide
  refine ⟨h1, ?_, rfl, ?_⟩
  · refine ((c6_opacity_suffix { input_files := [], watermark := wmHalf }).1 h1).trans ?_
    show chars "white" ++ '@' :: fmt2 ((1 : ℚ) / 2) = chars "white@0.50"
    rw [hf]
    rfl
  · have h2 := (c6_opacity_suffix imgJobHalf).2.2 (chars "wm.png") rfl rfl
    rw [h2, show imgJobHalf.watermark.opacity = (1 : ℚ) / 2 from rfl, hf]
    rfl

/-- C7: the built command is exactly binary, overwrite flag, primary input,
extra inputs, the `-filter_complex` clause with `;`-joined stages, the
device-selected video-codec clause, the audio-copy clause and the output
path, in that order; the build is a pure function that fails (the
`ValueError` model of `SpecInvalid`) exactly when an image watermark has no
image path. -/
theorem c7_command_assembly (job : Job) (inf outf : List Char) :
    ((∃ msg, build_ffmpeg_command job inf outf = Except.error msg) ↔
      (job.watermark.type = WatermarkType.image ∧
        job.watermark.image_path = none)) ∧
    (∀ ins fil, build_filter_and_inputs job = Except.ok (ins, fil) →
      fil ≠ [] ∧
      build_ffmpeg_command job inf outf = Except.ok
        ([dictGetD job.metadata (chars "ffmpeg_binary") (chars "ffmpeg"),
          chars "-y", chars "-i", inf]
          ++ ins ++ [chars "-filter_complex", joinSemicolon fil]
          ++ codecClause job ++ [chars "-c:a", chars "copy", outf])) ∧
    (job.target_device = TargetDevice.cpu → codecClause job =
      [chars "-c:v", chars "libx264", chars "-preset",
       dictGetD job.metadata (chars "preset") (chars "medium")]) ∧
    (job.target_device = TargetDevice.intel →
      codecClause job = [chars "-c:v", chars "h264_qsv"]) ∧
    (job.target_device = TargetDevice.nvidia →
      codecClause job = [chars "-c:v", chars "h264_nvenc"]) := by
  refine ⟨build_cmd_error_iff job inf outf, fun ins fil hfi => ?_,
    fun h => by rw [codecClause, h], fun h => by rw [codecClause, h],
    fun h => by rw [codecClause, h]⟩
  have hne := build_filter_ok_nonempty job ins fil hfi
  refine ⟨hne, ?_⟩
  rw [build_ffmpeg_command, hfi]
  simp [Except.map, hne]

/-- Witness for C7 on a concrete text job: the filter pair is `ok`, the
assembled command has the stated shape, and the `cpu` codec clause is
`libx264` with the default `medium` preset. -/
theorem c7_command_assembly_witness :
    build_filter_and_inputs fontPathJob = Except.ok ([],
      [chars "drawtext=text=hello:fontcolor=white:fontsize=36:x=W-w-20:y=20:fontfile=C:/Fonts/arial.ttf"]) ∧
    fontPathJob.target_device = TargetDevice.cpu ∧
    codecClause fontPathJob
      = [chars "-c:v", chars "libx264", chars "-preset", chars "medium"] ∧
    build_ffmpeg_command fontPathJob (chars "a.mp4") (chars "out.mp4")
      = Except.ok
        [chars "ffmpeg", chars "-y", chars "-i", chars "a.mp4",
         chars "-filter_complex",
         chars "drawtext=text=hello:fontcolor=white:fontsize=36:x=W-w-20:y=20:fontfile=C:/Fonts/arial.ttf",
         chars "-c:v", chars "libx264", chars "-preset", chars "medium",
         chars "-c:a", chars "copy", chars "out.mp4"] := by
  refine ⟨rfl, rfl, ?_, ?_⟩
  · exact ((c7_command_assembly fontPathJob (chars "a.mp4") (chars "out.mp4")).2.2.1 rfl).trans
      (by rfl)
  · refine (((c7_command_assembly fontPathJob (chars "a.mp4") (chars "out.mp4")).2.1 _ _ rfl).2).trans ?_
    rfl

/- ----------------------------------------------------------------
   Claims C8–C10
   ---------------------------------------------------------------- -/

/-- C8: a reconfiguration payload carrying a worker count below 1 or an
empty default output format is rejected by the schema validation (the
`ConfigInvalid` model) before `update_settings` runs, and the configuration
in effect afterwards — pool size included — is exactly the prior one. -/
theorem c8_config_invalid (p : SettingsUpdate) (st : PoolState)
    (hbad : (∃ m, p.max_parallel_jobs = some m ∧ m < 1) ∨
      p.default_output_format = some []) :
    (∃ e, settings_endpoint p st = Except.error e) ∧
    settings_endpoint_result p st = st := by
  have hval : ∃ e, validate_settings_update p = Except.error e := by
    rcases hbad with ⟨m, hm, hlt⟩ | hfmt
    · refine ⟨chars "max_parallel_jobs must be >= 1", ?_⟩
      simp [validate_settings_update, hm, hlt]
    · cases hmp : p.max_parallel_jobs with
      | none =>
        refine ⟨chars "default_output_format cannot be empty", ?_⟩
        simp [validate_settings_update, hmp, checkOutputFormat, hfmt]
      | some m =>
        by_cases hlt : m < 1
        · refine ⟨chars "max_parallel_jobs must be >= 1", ?_⟩
          simp [validate_settings_update, hmp, hlt]
        · refine ⟨chars "default_output_format cannot be empty", ?_⟩
          simp [validate_settings_update, hmp, hlt, checkOutputFormat, hfmt]
  obtain ⟨e, he⟩ := hval
  have hep : settings_endpoint p st = Except.error e := by
    simp [settings_endpoint, he, Except.map]
  exact ⟨⟨e, hep⟩, by simp [settings_endpoint_result, hep]⟩

/-- Witness for C8: `max_parallel_jobs = 0` is rejected and the pool state,
including its worker count, is untouched. -/
theorem c8_config_invalid_witness :
    ((∃ m, zeroWorkersUpdate.max_parallel_jobs = some m ∧ m < 1) ∨
      zeroWorkersUpdate.default_output_format = some []) ∧
    settings_endpoint_result zeroWorkersUpdate examplePool = examplePool := by
  have hbad : (∃ m, zeroWorkersUpdate.max_parallel_jobs = some m ∧ m < 1) ∨
      zeroWorkersUpdate.default_output_format = some [] :=
    Or.inl ⟨0, rfl, by norm_num⟩
  exact ⟨hbad, (c8_config_invalid zeroWorkersUpdate examplePool hbad).2⟩

/-- C9: a job identifier generated by the registry (32 lowercase hex
characters, the shape of `uuid.uuid4().hex`) is never the `"__stop__"`
retire sentinel, so a dequeued job identifier never makes a worker exit,
while a dequeued retire token always does. -/
theorem c9_sentinel_never_job_id (s : List Char) (h : isJobIdShape s) :
    s ≠ STOP_SENTINEL ∧
    workerDecision s = WorkerAct.handle ∧
    workerDecision STOP_SENTINEL = WorkerAct.exitLoop := by
  have hne : s ≠ STOP_SENTINEL := by
    intro he
    rw [he] at h
    exact absurd h.1 (by decide)
  exact ⟨hne, by rw [workerDecision, if_neg hne], rfl⟩

/-- Witness for C9 at a concrete 32-character hexadecimal identifier. -/
theorem c9_sentinel_never_job_id_witness :
    isJobIdShape (chars "0123456789abcdef0123456789abcdef") ∧
    workerDecision (chars "0123456789abcdef0123456789abcdef") = WorkerAct.handle := by
  have h : isJobIdShape (chars "0123456789abcdef0123456789abcdef") := by decide
  exact ⟨h, (c9_sentinel_never_job_id _ h).2.1⟩

/-- C10: `create_job` never rejects the raw target-device selector: an
unknown selector, or any non-`cpu` selector while the GPU-allow flag is
off, is silently coerced to `cpu`; otherwise the selector is stored
unchanged. -/
theorem c10_device_coercion (raw : List Char) (g : Bool) :
    (raw ∉ deviceStrings → create_job_device raw g = TargetDevice.cpu) ∧
    (g = false → create_job_device raw g = TargetDevice.cpu) ∧
    (raw = chars "cpu" → create_job_device raw g = TargetDevice.cpu) ∧
    (raw = chars "intel" → g = true → create_job_device raw g = TargetDevice.intel) ∧
    (raw = chars "nvidia" → g = true → create_job_device raw g = TargetDevice.nvidia) := by
  refine ⟨fun h => ?_, fun h => ?_, fun h => ?_, fun h hg => ?_, fun h hg => ?_⟩
  · have hnc : ¬(chars "cpu" ≠ chars "cpu" ∧ g = false) := fun hc => hc.1 rfl
    simp only [create_job_device, if_neg h, if_neg hnc]
    decide
  · subst h
    by_cases hin : raw ∈ deviceStrings
    · simp [deviceStrings] at hin
      rcases hin with h | h | h <;> subst h <;> decide
    · simp only [create_job_device, if_neg hin]
      decide
  · subst h
    have hin : chars "cpu" ∈ deviceStrings := by decide
    have hnc : ¬(chars "cpu" ≠ chars "cpu" ∧ g = false) := fun hc => hc.1 rfl
    simp only [create_job_device, if_pos hin, if_neg hnc]
    decide
  · subst h
    subst hg
    decide
  · subst h
    subst hg
    decide

/-- Witness for C10: selector `nvidia` with the GPU flag on is stored
unchanged. -/
theorem c10_device_coercion_witness :
    chars "nvidia" = chars "nvidia" ∧
    create_job_device (chars "nvidia") true = TargetDevice.nvidia :=
  ⟨rfl, (c10_device_coercion (chars "nvidia") true).2.2.2.2 rfl rfl⟩

/- ----------------------------------------------------------------
   Helper lemmas about runInputs
   ---------------------------------------------------------------- -/

theorem build_ok_of_errFree (job : Job) (hb : buildErrFree job)
    (f o : List Char) :
    ∃ c, build_ffmpeg_command job f o = Except.ok c := by
  rcases hq : build_ffmpeg_command job f o with m | c
  · exact absurd ((build_cmd_error_iff job f o).mp ⟨m, hq⟩) hb
  · exact ⟨c, rfl⟩

theorem builtCmd_eq (job : Job) (f : List Char) (c : List (List Char))
    (hc : build_ffmpeg_command job f (outputPath job f) = Except.ok c) :
    builtCmd job f = c := by
  rw [builtCmd, hc]

theorem runInputs_cons_ok (job : Job) (env : ℕ → ExecResult) (tF n : ℕ)
    (f : List Char) (rest : List (List Char)) (i : ℕ) (st : JobState)
    (hb : buildErrFree job) (hc : (env i).exitCode = 0) :
    runInputs job env tF n (f :: rest) i st =
      runInputs job env tF n rest (i + 1)
        { st with
          log := st.log ++ okBlock job env i f
          progress := (i : ℚ) / (n : ℚ)
          progress_history := st.progress_history ++ [(i : ℚ) / (n : ℚ)] } := by
  obtain ⟨c, hcmd⟩ := build_ok_of_errFree job hb f (outputPath job f)
  rw [runInputs, hcmd]
  simp only [hc, ne_eq, not_true_eq_false, ite_false, if_neg, not_false_eq_true]
  congr 1
  simp [okBlock, builtCmd_eq job f c hcmd, List.append_assoc]

theorem runInputs_cons_fail (job : Job) (env : ℕ → ExecResult) (tF n : ℕ)
    (f : List Char) (rest : List (List Char)) (i : ℕ) (st : JobState)
    (hfail : ¬ inputOk job env i) :
    runInputs job env tF n (f :: rest) i st = Except.error
      { st with
        status := JobStatus.failed
        finished_at := some tF
        log := st.log ++ failBlock job env i f } := by
  by_cases hb : buildErrFree job
  · have hc : (env i).exitCode ≠ 0 := fun h0 => hfail ⟨hb, h0⟩
    obtain ⟨c, hcmd⟩ := build_ok_of_errFree job hb f (outputPath job f)
    rw [runInputs, hcmd]
    simp only [hc, ne_eq, not_false_eq_true, ite_true, if_pos]
    congr 1
    simp [failBlock, hcmd, List.append_assoc]
  · have himg : job.watermark.type = WatermarkType.image ∧
        job.watermark.image_path = none := not_not.mp hb
    obtain ⟨m, hm⟩ : ∃ m, build_ffmpeg_command job f (outputPath job f)
        = Except.error m := (build_cmd_error_iff job f (outputPath job f)).mpr himg
    rw [runInputs, hm]
    simp [failBlock, hm]

theorem runInputs_append_ok (job : Job) (env : ℕ → ExecResult) (tF n : ℕ) :
    ∀ (l1 fs : List (List Char)) (i : ℕ) (st : JobState),
      (∀ j, i ≤ j → j < i + l1.length → inputOk job env j) →
      runInputs job env tF n (l1 ++ fs) i st =
        runInputs job env tF n fs (i + l1.length) (afterOk job env n l1 i st) := by
  intro l1
  induction l1 with
  | nil =>
    intro fs i st h
    cases st
    simp [afterOk, okBlocks]
  | cons f rest ih =>
    intro fs i st h
    have hok : inputOk job env i :=
      h i (le_refl i) (by simp only [List.length_cons]; omega)
    rw [List.cons_append,
      runInputs_cons_ok job env tF n f (rest ++ fs) i st hok.1 hok.2,
      ih fs (i + 1) _
        (fun j h1 h2 => h j (by omega) (by simp only [List.length_cons]; omega))]
    have hidx : i + 1 + rest.length = i + (f :: rest).length := by
      simp only [List.length_cons]; omega
    rw [hidx]
    congr 1
    simp only [afterOk, List.length_cons]
    congr 1
    · -- progress component
      rcases Nat.eq_zero_or_pos rest.length with hr | hr
      · simp [hr]
      · have h1 : rest.length ≠ 0 := by omega
        have h2 : rest.length + 1 ≠ 0 := by omega
        rw [if_neg h1, if_neg h2]
        have h3 : i + 1 + rest.length - 1 = i + (rest.length + 1) - 1 := by omega
        rw [h3]
    · -- log component
      rw [okBlocks, List.append_assoc]
    · -- progress_history component
      rw [List.range'_succ]
      simp [List.append_assoc]

theorem countP_okBlock (job : Job) (env : ℕ → ExecResult) (i : ℕ)
    (f : List Char) (p : LogEntry → Bool)
    (h1 : ∀ a b, p (LogEntry.processing a b) = false)
    (h2 : ∀ r, p (LogEntry.command r) = false)
    (h3 : ∀ l, p (LogEntry.ffmpegLine l) = false)
    (h4 : ∀ a, p (LogEntry.fileCompleted a) = false) :
    (okBlock job env i f).countP p = 0 := by
  rw [okBlock]
  simp [List.countP_append, List.countP_cons, List.countP_map, h1, h2, h4]
  intro a ha
  simp [h3]

theorem countP_okBlocks (job : Job) (env : ℕ → ExecResult)
    (p : LogEntry → Bool)
    (h1 : ∀ a b, p (LogEntry.processing a b) = false)
    (h2 : ∀ r, p (LogEntry.command r) = false)
    (h3 : ∀ l, p (LogEntry.ffmpegLine l) = false)
    (h4 : ∀ a, p (LogEntry.fileCompleted a) = false) :
    ∀ (fs : List (List Char)) (i : ℕ), (okBlocks job env fs i).countP p = 0 := by
  intro fs
  induction fs with
  | nil => intro i; rfl
  | cons f rest ih =>
    intro i
    rw [okBlocks, List.countP_append, countP_okBlock job env i f p h1 h2 h3 h4, ih]

theorem countP_failBlock (job : Job) (env : ℕ → ExecResult) (i : ℕ)
    (f : List Char) :
    (failBlock job env i f).countP isFailureEntry = 1 := by
  rw [failBlock]
  rcases hq : build_ffmpeg_command job f (outputPath job f) with m | c
  · simp [List.countP_cons, isFailureEntry]
  · simp [List.countP_append, List.countP_cons, List.countP_map, isFailureEntry]

theorem chain'_le_div_range' (n : ℕ) (hn : 0 < n) :
    ∀ (len s : ℕ) (q : ℚ), q ≤ (s : ℚ) / (n : ℚ) →
      List.Chain' (· ≤ ·)
        (q :: (List.range' s len).map (fun j => ((j : ℕ) : ℚ) / (n : ℚ))) := by
  intro len
  induction len with
  | zero => intro s q hq; simp
  | succ m ih =>
    intro s q hq
    rw [List.range'_succ, List.map_cons]
    refine List.chain'_cons.mpr ⟨hq, ?_⟩
    apply ih
    have hc : (0 : ℚ) < (n : ℚ) := by exact_mod_cast hn
    refine (div_le_div_iff_of_pos_right hc).mpr ?_
    exact_mod_cast Nat.le_succ s

theorem run_job_eq (job : Job) (env : ℕ → ExecResult) (tS tF : ℕ)
    (st : JobState)
    (hst : ¬(st.status = JobStatus.cancelled ∨ st.status = JobStatus.completed)) :
    run_job job env tS tF st =
      match runInputs job env tF job.input_files.length job.input_files 1
        { st with
          status := JobStatus.running
          started_at := some tS
          log := st.log ++ [LogEntry.starting job.input_files.length] } with
      | Except.error stFail => stFail
      | Except.ok st1 =>
        { st1 with
          status := JobStatus.completed
          finished_at := some tF
          log := st1.log ++ [LogEntry.finishedOk] } := by
  rw [run_job, if_neg hst]

/-- C4: if inputs 1..k succeed and input k+1 fails (command build error or
non-zero exit), the job ends `failed` with `finished_at` stamped, progress
frozen at k/n, exactly one failure log entry, and a log consisting of the
creation/start lines, the blocks of the k successful inputs in order, and
the failing input's block — nothing for any input after k+1, which are
never processed. -/
theorem c4_failure_stops_job (job : Job) (env : ℕ → ExecResult) (tS tF k : ℕ)
    (hk : k < job.input_files.length)
    (hok : ∀ j, 1 ≤ j → j ≤ k → inputOk job env j)
    (hfail : ¬ inputOk job env (k + 1)) :
    (run_job job env tS tF initJobState).status = JobStatus.failed ∧
    (run_job job env tS tF initJobState).finished_at = some tF ∧
    (run_job job env tS tF initJobState).progress
      = (k : ℚ) / (job.input_files.length : ℚ) ∧
    ((run_job job env tS tF initJobState).log.countP isFailureEntry) = 1 ∧
    (run_job job env tS tF initJobState).log
      = LogEntry.created :: LogEntry.starting job.input_files.length ::
          (okBlocks job env (job.input_files.take k) 1
            ++ failBlock job env (k + 1) (job.input_files.get ⟨k, hk⟩)) := by
  have hguard : ¬(initJobState.status = JobStatus.cancelled ∨
      initJobState.status = JobStatus.completed) := by
    simp [initJobState]
  rw [run_job_eq job env tS tF initJobState hguard]
  set st0 : JobState :=
    { initJobState with
      status := JobStatus.running
      started_at := some tS
      log := initJobState.log ++ [LogEntry.starting job.input_files.length] }
    with hst0
  have hsplit : job.input_files = job.input_files.take k
      ++ (job.input_files.get ⟨k, hk⟩ :: job.input_files.drop (k + 1)) := by
    rw [List.get_eq_getElem, ← List.drop_eq_getElem_cons hk, List.take_append_drop]
  have hlen : (job.input_files.take k).length = k := by
    rw [List.length_take]
    omega
  have hokpre : ∀ j, 1 ≤ j → j < 1 + (job.input_files.take k).length →
      inputOk job env j := by
    intro j h1 h2
    rw [hlen] at h2
    exact hok j h1 (by omega)
  have hfail' : ¬ inputOk job env (1 + k) := by
    rw [Nat.add_comm]
    exact hfail
  have hrun : runInputs job env tF job.input_files.length
      (job.input_files.take k
        ++ (job.input_files.get ⟨k, hk⟩ :: job.input_files.drop (k + 1))) 1 st0
      = Except.error
        { afterOk job env job.input_files.length (job.input_files.take k) 1 st0 with
          status := JobStatus.failed
          finished_at := some tF
          log := (afterOk job env job.input_files.length
              (job.input_files.take k) 1 st0).log
            ++ failBlock job env (1 + k) (job.input_files.get ⟨k, hk⟩) } := by
    rw [runInputs_append_ok job env tF job.input_files.length _ _ 1 st0 hokpre,
      hlen, runInputs_cons_fail job env tF job.input_files.length _ _ (1 + k) _ hfail']
  rw [← hsplit] at hrun
  rw [hrun]
  have hkk : 1 + k = k + 1 := Nat.add_comm 1 k
  refine ⟨rfl, rfl, ?_, ?_, ?_⟩
  · show (afterOk job env job.input_files.length (job.input_files.take k) 1 st0).progress
      = (k : ℚ) / (job.input_files.length : ℚ)
    rw [afterOk]
    simp only [hlen]
    rcases Nat.eq_zero_or_pos k with h0 | hpos
    · subst h0
      simp [initJobState]
    · rw [if_neg (by omega)]
      congr 2
      omega
  · show ((afterOk job env job.input_files.length (job.input_files.take k) 1 st0).log
        ++ failBlock job env (1 + k) (job.input_files.get ⟨k, hk⟩)).countP isFailureEntry = 1
    rw [List.countP_append, countP_failBlock, afterOk]
    simp only []
    rw [List.countP_append,
      countP_okBlocks job env isFailureEntry (fun a b => rfl) (fun r => rfl)
        (fun l => rfl) (fun a => rfl)]
    simp [initJobState, isFailureEntry, List.countP_cons]
  · show (afterOk job env job.input_files.length (job.input_files.take k) 1 st0).log
        ++ failBlock job env (1 + k) (job.input_files.get ⟨k, hk⟩)
      = LogEntry.created :: LogEntry.starting job.input_files.length ::
          (okBlocks job env (job.input_files.take k) 1
            ++ failBlock job env (k + 1) (job.input_files.get ⟨k, hk⟩))
    rw [afterOk]
    simp only []
    rw [hkk]
    simp [initJobState, List.append_assoc]

/-- Witness for C4: on `job4` under `env4`, input 1 succeeds, input 2 fails,
and the job ends `failed` with progress 1/2 and one failure log entry. -/
theorem c4_failure_stops_job_witness :
    1 < job4.input_files.length ∧
    (¬ inputOk job4 env4 2) ∧
    (run_job job4 env4 3 7 initJobState).status = JobStatus.failed ∧
    (run_job job4 env4 3 7 initJobState).finished_at = some 7 ∧
    (run_job job4 env4 3 7 initJobState).progress = 1 / 2 ∧
    ((run_job job4 env4 3 7 initJobState).log.countP isFailureEntry) = 1 := by
  have hk : 1 < job4.input_files.length := by decide
  have hok : ∀ j, 1 ≤ j → j ≤ 1 → inputOk job4 env4 j := by
    intro j h1 h2
    have hj : j = 1 := le_antisymm h2 h1
    subst hj
    exact ⟨by decide, rfl⟩
  have hfail : ¬ inputOk job4 env4 2 := fun h => absurd h.2 (by decide)
  obtain ⟨h1, h2, h3, h4, h5⟩ := c4_failure_stops_job job4 env4 3 7 1 hk hok hfail
  have hlen : job4.input_files.length = 2 := rfl
  rw [hlen] at h3
  norm_num at h3
  exact ⟨hk, hfail, h1, h2, h3, h4⟩

/-- C5: a job all of whose inputs succeed ends `completed` with progress
1.0, `started_at ≤ finished_at` (for a monotone clock), exactly one
completion log entry, the per-input log blocks in submission order, and a
monotonically non-decreasing progress history. -/
theorem c5_success_completes (job : Job) (env : ℕ → ExecResult) (tS tF : ℕ)
    (hn : 0 < job.input_files.length)
    (hok : ∀ j, 1 ≤ j → j ≤ job.input_files.length → inputOk job env j)
    (ht : tS ≤ tF) :
    (run_job job env tS tF initJobState).status = JobStatus.completed ∧
    (run_job job env tS tF initJobState).progress = 1 ∧
    (run_job job env tS tF initJobState).started_at = some tS ∧
    (run_job job env tS tF initJobState).finished_at = some tF ∧
    (∀ a b, (run_job job env tS tF initJobState).started_at = some a →
      (run_job job env tS tF initJobState).finished_at = some b → a ≤ b) ∧
    ((run_job job env tS tF initJobState).log.countP isCompletionEntry) = 1 ∧
    (run_job job env tS tF initJobState).log
      = LogEntry.created :: LogEntry.starting job.input_files.length ::
          (okBlocks job env job.input_files 1 ++ [LogEntry.finishedOk]) ∧
    List.Chain' (· ≤ ·) (run_job job env tS tF initJobState).progress_history := by
  have hguard : ¬(initJobState.status = JobStatus.cancelled ∨
      initJobState.status = JobStatus.completed) := by
    simp [initJobState]
  rw [run_job_eq job env tS tF initJobState hguard]
  set st0 : JobState :=
    { initJobState with
      status := JobStatus.running
      started_at := some tS
      log := initJobState.log ++ [LogEntry.starting job.input_files.length] }
    with hst0
  have hokpre : ∀ j, 1 ≤ j → j < 1 + job.input_files.length →
      inputOk job env j := fun j h1 h2 => hok j h1 (by omega)
  have hrun : runInputs job env tF job.input_files.length
      (job.input_files ++ []) 1 st0
      = Except.ok (afterOk job env job.input_files.length job.input_files 1 st0) := by
    rw [runInputs_append_ok job env tF job.input_files.length job.input_files [] 1 st0
      hokpre]
    rfl
  rw [List.append_nil] at hrun
  rw [hrun]
  refine ⟨rfl, ?_, rfl, rfl, ?_, ?_, ?_, ?_⟩
  · show (afterOk job env job.input_files.length job.input_files 1 st0).progress = 1
    rw [afterOk]
    simp only []
    rw [if_neg (by omega)]
    have harith : 1 + job.input_files.length - 1 = job.input_files.length := by omega
    rw [harith]
    exact div_self (Nat.cast_ne_zero.mpr (by omega))
  · intro a b ha hb
    have ha' : some tS = some a := ha
    have hb' : some tF = some b := hb
    obtain rfl : tS = a := Option.some.inj ha'
    obtain rfl : tF = b := Option.some.inj hb'
    exact ht
  · show ((afterOk job env job.input_files.length job.input_files 1 st0).log
        ++ [LogEntry.finishedOk]).countP isCompletionEntry = 1
    rw [List.countP_append, afterOk]
    simp only []
    rw [List.countP_append,
      countP_okBlocks job env isCompletionEntry (fun a b => rfl) (fun r => rfl)
        (fun l => rfl) (fun a => rfl)]
    simp [initJobState, isCompletionEntry, List.countP_cons]
  · show (afterOk job env job.input_files.length job.input_files 1 st0).log
        ++ [LogEntry.finishedOk]
      = LogEntry.created :: LogEntry.starting job.input_files.length ::
          (okBlocks job env job.input_files 1 ++ [LogEntry.finishedOk])
    rw [afterOk]
    simp [initJobState, List.append_assoc]
  · show List.Chain' (· ≤ ·)
      (afterOk job env job.input_files.length job.input_files 1 st0).progress_history
    show List.Chain' (· ≤ ·)
      ([(0 : ℚ)] ++ (List.range' 1 job.input_files.length).map
        (fun j => ((j : ℕ) : ℚ) / (job.input_files.length : ℚ)))
    rw [List.singleton_append]
    exact chain'_le_div_range' job.input_files.length hn job.input_files.length 1 0
      (by positivity)

/-- Witness for C5: `job4` under the all-success environment completes with
progress 1, one completion entry and a monotone progress history. -/
theorem c5_success_completes_witness :
    0 < job4.input_files.length ∧ (3 : ℕ) ≤ 7 ∧
    (run_job job4 envOk 3 7 initJobState).status = JobStatus.completed ∧
    (run_job job4 envOk 3 7 initJobState).progress = 1 ∧
    (run_job job4 envOk 3 7 initJobState).started_at = some 3 ∧
    (run_job job4 envOk 3 7 initJobState).finished_at = some 7 ∧
    ((run_job job4 envOk 3 7 initJobState).log.countP isCompletionEntry) = 1 ∧
    List.Chain' (· ≤ ·) (run_job job4 envOk 3 7 initJobState).progress_history := by
  have hn : 0 < job4.input_files.length := by decide
  have hok : ∀ j, 1 ≤ j → j ≤ job4.input_files.length → inputOk job4 envOk j :=
    fun j h1 h2 => ⟨by decide, rfl⟩
  have ht : (3 : ℕ) ≤ 7 := by norm_num
  obtain ⟨h1, h2, h3, h4, h5, h6, h7, h8⟩ :=
    c5_success_completes job4 envOk 3 7 hn hok ht
  exact ⟨hn, ht, h1, h2, h3, h4, h6, h8⟩

